import Mathlib

/-!
Verification of the ultra-plan-mode repository against its specification.

The file shallowly embeds the parts of the source the claims touch:

* the speaker-rotation helper of the dashboard (src/unnamed/part_002,
  rotateSpeakersLocal);
* the WebSocket message handlers of the dashboard that move the workflow
  stage (src/unnamed/part_002, App);
* the user-input submission guard of the dashboard (src/unnamed/part_002);
* the configuration validation and persistence layer
  (src/server/src/cliTester.ts: validateConfig, saveConfig);
* the replay buffer of a terminal session
  (src/server/src/sessionManager.ts: Session);
* models, built from the words of the specification, of the subprocess
  runner timers and of the continuation and gap analyzers, whose code is
  not among the repository files given under src/.

JavaScript numbers that undergo an integer test are embedded as rationals,
so that the Number.isInteger checks keep their force.
-/

namespace UltraPlan

/-- The fixed participant enumeration of the dashboard (type CliName of
src/unnamed/part_002). -/
inductive CliName where
  | claude
  | codex
  | gemini
deriving DecidableEq, Repr

instance : Inhabited CliName := ⟨CliName.claude⟩

/-- Embedding of rotateSpeakersLocal (src/unnamed/part_002, lines 1050-1054):
the offset is (round - 1) % participants.length, and the result is
participants.slice(offset) concatenated with participants.slice(0, offset). -/
def rotateSpeakersLocal (participants : List CliName) (round : Nat) : List CliName :=
  let offset := (round - 1) % participants.length
  participants.drop offset ++ participants.take offset

/-- The workflow stages of the dashboard (type WorkflowStage of
src/unnamed/part_002, line 66). -/
inductive WorkflowStage where
  | readiness
  | workspace
  | questioning
  | discussionInit
  | initialViews
  | discussion
  | consensus
  | planGeneration
  | complete
deriving DecidableEq, Repr

/-- Embedding of the ultraplan.discussionComplete case of the WebSocket
message handler (src/unnamed/part_002, lines 431-439): payload status
"completed" sets the stage to consensus, "failed" sets it to complete, and
any other payload leaves the stage unchanged. -/
def handleDiscussionComplete (stage : WorkflowStage) (status : Option String) :
    WorkflowStage :=
  if status = some "completed" then WorkflowStage.consensus
  else if status = some "failed" then WorkflowStage.complete
  else stage

/-- Embedding of the ultraplan.discussionFileInit case of the WebSocket
message handler (src/unnamed/part_002, lines 364-372): payload status
"skipped" sets the stage to complete, anything else sets it to
discussion-init. -/
def handleDiscussionFileInit (_stage : WorkflowStage) (status : Option String) :
    WorkflowStage :=
  if status = some "skipped" then WorkflowStage.complete
  else WorkflowStage.discussionInit

/-- Embedding of the disabled condition of the user-input submit button
(src/unnamed/part_002, line 752): disabled when some displayed question
index i has no answer or a whitespace-only answer. The JavaScript record
userInputAnswers is embedded as a map from index to an optional string. -/
def submitDisabled (questions : List String) (answers : Nat → Option String) : Bool :=
  (List.range questions.length).any fun i =>
    match answers i with
    | none => true
    | some a => a.trim == ""

/-- Embedding of submitUserInput (src/unnamed/part_002, lines 251-253): the
handler sends the message type ultraplan.userInputSubmit with the answer
mapping as its payload, unchanged. -/
def submitUserInput (answers : Nat → Option String) :
    String × (Nat → Option String) :=
  ("ultraplan.userInputSubmit", answers)

/-- The configuration record (interface UltraPlanConfig of
src/server/src/cliTester.ts, lines 268-281). Numeric JavaScript fields are
embedded as rationals so that Number.isInteger remains a real test. -/
structure UltraPlanConfig where
  readyKeyword : String
  readyProbePrompt : String
  readyTimeoutMs : ℚ
  systemPrompt : String
  discussionTemplate : String
  idleCompleteMs : ℚ
  questionTimeoutMs : ℚ
  discussionRounds : ℚ
  discussionTurnTimeoutMs : ℚ
  enableConsensusSummary : Bool
  enablePlanGeneration : Bool
  discussionLanguage : String

/-- Embedding of Number.isInteger for a rational-valued JavaScript number. -/
def jsIsInteger (q : ℚ) : Prop := q.den = 1

instance (q : ℚ) : Decidable (jsIsInteger q) := by unfold jsIsInteger; infer_instance

/-- A validation error (type ValidationError of src/server/src/cliTester.ts,
line 432). -/
structure ValidationError where
  field : String
  message : String
deriving DecidableEq, Repr

/-- Characters the readyKeyword regular expression accepts: letters, digits
and the underscore. -/
def keywordChar (ch : Char) : Bool := ch.isAlphanum || ch == '_'

/-- validateConfig, readyKeyword block (src/server/src/cliTester.ts, lines
438-444). An empty or blank string fails the first test; the second test is
the regular expression accepting only letters, digits and underscores; the
third is the 50-character cap. -/
def errsReadyKeyword (c : UltraPlanConfig) : List ValidationError :=
  if c.readyKeyword.trim.length = 0 then [⟨"readyKeyword", "不能为空"⟩]
  else if ¬ c.readyKeyword.toList.all keywordChar then
    [⟨"readyKeyword", "仅允许字母、数字、下划线"⟩]
  else if 50 < c.readyKeyword.length then [⟨"readyKeyword", "最长 50 字符"⟩]
  else []

/-- validateConfig, readyProbePrompt block (src/server/src/cliTester.ts,
lines 447-451). -/
def errsReadyProbePrompt (c : UltraPlanConfig) : List ValidationError :=
  if c.readyProbePrompt.trim.length = 0 then [⟨"readyProbePrompt", "不能为空"⟩]
  else if 500 < c.readyProbePrompt.length then [⟨"readyProbePrompt", "最长 500 字符"⟩]
  else []

/-- validateConfig, systemPrompt block (src/server/src/cliTester.ts, lines
454-456). -/
def errsSystemPrompt (c : UltraPlanConfig) : List ValidationError :=
  if 10000 < c.systemPrompt.length then [⟨"systemPrompt", "最长 10000 字符"⟩]
  else []

/-- validateConfig, discussionTemplate block (src/server/src/cliTester.ts,
lines 459-463). -/
def errsDiscussionTemplate (c : UltraPlanConfig) : List ValidationError :=
  if c.discussionTemplate.trim.length = 0 then [⟨"discussionTemplate", "不能为空"⟩]
  else if 100000 < c.discussionTemplate.length then
    [⟨"discussionTemplate", "最长 100000 字符"⟩]
  else []

/-- validateConfig, readyTimeoutMs block (src/server/src/cliTester.ts, lines
466-468). -/
def errsReadyTimeout (c : UltraPlanConfig) : List ValidationError :=
  if ¬ jsIsInteger c.readyTimeoutMs ∨ c.readyTimeoutMs < 5000 ∨
      300000 < c.readyTimeoutMs then
    [⟨"readyTimeoutMs", "必须为 5000-300000 的整数 (5s-300s)"⟩]
  else []

/-- validateConfig, idleCompleteMs block (src/server/src/cliTester.ts, lines
469-471). -/
def errsIdleComplete (c : UltraPlanConfig) : List ValidationError :=
  if ¬ jsIsInteger c.idleCompleteMs ∨ c.idleCompleteMs < 5000 ∨
      120000 < c.idleCompleteMs then
    [⟨"idleCompleteMs", "必须为 5000-120000 的整数 (5s-120s)"⟩]
  else []

/-- validateConfig, questionTimeoutMs block (src/server/src/cliTester.ts,
lines 472-474). -/
def errsQuestionTimeout (c : UltraPlanConfig) : List ValidationError :=
  if ¬ jsIsInteger c.questionTimeoutMs ∨ c.questionTimeoutMs < 30000 ∨
      600000 < c.questionTimeoutMs then
    [⟨"questionTimeoutMs", "必须为 30000-600000 的整数 (30s-600s)"⟩]
  else []

/-- validateConfig, discussionRounds block (src/server/src/cliTester.ts,
lines 477-479): an error unless the value is an integer between 1 and 10. -/
def errsDiscussionRounds (c : UltraPlanConfig) : List ValidationError :=
  if ¬ jsIsInteger c.discussionRounds ∨ c.discussionRounds < 1 ∨
      10 < c.discussionRounds then
    [⟨"discussionRounds", "必须为 1-10 的整数"⟩]
  else []

/-- validateConfig, discussionTurnTimeoutMs block
(src/server/src/cliTester.ts, lines 482-484). -/
def errsTurnTimeout (c : UltraPlanConfig) : List ValidationError :=
  if ¬ jsIsInteger c.discussionTurnTimeoutMs ∨ c.discussionTurnTimeoutMs < 30000 ∨
      600000 < c.discussionTurnTimeoutMs then
    [⟨"discussionTurnTimeoutMs", "必须为 30000-600000 的整数 (30s-600s)"⟩]
  else []

/-- validateConfig, discussionLanguage block (src/server/src/cliTester.ts,
lines 497-501). -/
def errsLanguage (c : UltraPlanConfig) : List ValidationError :=
  if c.discussionLanguage.trim.length = 0 then [⟨"discussionLanguage", "不能为空"⟩]
  else if 20 < c.discussionLanguage.length then
    [⟨"discussionLanguage", "最长 20 字符"⟩]
  else []

/-- Embedding of validateConfig (src/server/src/cliTester.ts, lines
434-504): the error blocks are pushed in source order. The typeof checks on
enableConsensusSummary and enablePlanGeneration can never fire here, the
fields being Bool by type, so they contribute no block. -/
def validateConfig (c : UltraPlanConfig) : List ValidationError :=
  errsReadyKeyword c ++ errsReadyProbePrompt c ++ errsSystemPrompt c ++
    errsDiscussionTemplate c ++ errsReadyTimeout c ++ errsIdleComplete c ++
    errsQuestionTimeout c ++ errsDiscussionRounds c ++ errsTurnTimeout c ++
    errsLanguage c

/-- Result record of saveConfig; ok with no errors, or not ok carrying the
validation errors. -/
structure SaveOutcome where
  ok : Bool
  errors : List ValidationError
deriving DecidableEq, Repr

/-- Embedding of saveConfig (src/server/src/cliTester.ts, lines 508-523)
over an explicit store: the stored configuration file is the second
component of the state. Validation errors short-circuit before any write;
the filesystem write itself is modelled as succeeding. -/
def saveConfig (c : UltraPlanConfig) (stored : Option UltraPlanConfig) :
    SaveOutcome × Option UltraPlanConfig :=
  let errors := validateConfig c
  if errors.isEmpty then (⟨true, []⟩, some c)
  else (⟨false, errors⟩, stored)

/-- Max bytes kept in the replay buffer per session
(src/server/src/sessionManager.ts, line 135). -/
def REPLAY_BUFFER_MAX : Nat := 256 * 1024

/-- The replay fields of a Session (src/server/src/sessionManager.ts, lines
150-151): the buffered chunks and the running size. -/
structure ReplayState where
  chunks : List String
  size : Nat
deriving DecidableEq, Repr

/-- The trim loop of the onData handler (src/server/src/sessionManager.ts,
lines 253-256): while the size exceeds the cap and more than one chunk
remains, drop the oldest chunk and subtract its length. -/
def trimReplay : List String → Nat → List String × Nat
  | [], size => ([], size)
  | c :: rest, size =>
    if REPLAY_BUFFER_MAX < size ∧ rest ≠ [] then trimReplay rest (size - c.length)
    else (c :: rest, size)

/-- The onData handler of a Session (src/server/src/sessionManager.ts, lines
247-258) restricted to the replay fields: push the normalized chunk, add its
length, then trim. The argument is the already normalized data chunk. -/
def sessionOnData (st : ReplayState) (data : String) : ReplayState :=
  let t := trimReplay (st.chunks ++ [data]) (st.size + data.length)
  ⟨t.1, t.2⟩

/-- The replay state after a session has handled a list of normalized data
chunks, starting from the empty buffer of a fresh Session. -/
def runSession (datas : List String) : ReplayState :=
  datas.foldl sessionOnData ⟨[], 0⟩

/-- Embedding of Session.getReplayBuffer (src/server/src/sessionManager.ts,
lines 281-284): the concatenation of the buffered chunks. -/
def getReplayBuffer (st : ReplayState) : String :=
  String.join st.chunks

/-- Total length of a list of chunks. -/
def sumLens (l : List String) : Nat := (l.map String.length).sum

/-- Modelled from the spec: the two timeout parameters of one subprocess
invocation (section 4.2); the subprocess runner itself is not among the
repository files under src/. -/
structure TimerParams where
  idleTimeout : Nat
  hardTimeout : Nat
deriving DecidableEq, Repr

/-- Modelled from the spec: one stdout data chunk of an invocation, as the
pair of its arrival time and the verdict of the content-detection probe on
the output accumulated up to and including this chunk (section 4.2). -/
abbrev Chunk := Nat × Bool

/-- Modelled from the spec: the time at which the idle timer is armed, that
is the arrival time of the first chunk on which the content probe reports
true; none when content is never detected (section 4.2). -/
def armTime (chunks : List Chunk) : Option Nat :=
  ((chunks.filter fun c => c.2).head?).map fun c => c.1

/-- Arrival time of the last data chunk of a trace (0 for the empty trace). -/
def lastChunkTime (chunks : List Chunk) : Nat :=
  (chunks.map fun c => c.1).foldr max 0

/-- Modelled from the spec: how one invocation settles (sections 4.2 and 7):
an idle-after-content timeout is a success carrying its settle time, a hard
timeout is a failure carrying its settle time. -/
inductive SettleOutcome where
  | idleSuccess (t : Nat)
  | hardFailure (t : Nat)
deriving DecidableEq, Repr

/-- Modelled from the spec: settlement of one invocation whose trace of
stdout chunks is finite, with no further output after the last chunk
(sections 4.2 and 8). The hard timer governs until the content probe first
reports true; when content is detected before the hard ceiling, the idle
timer takes over, resets on every chunk, and fires idleTimeout after the
last chunk, settling the invocation as a success. The testable property of
section 8 (content at 5s, idle 10s, hard 12s settles as success at 15s)
fixes this reading: arming the idle timer displaces the hard ceiling. -/
def settleInvocation (p : TimerParams) (chunks : List Chunk) : SettleOutcome :=
  match armTime chunks with
  | none => SettleOutcome.hardFailure p.hardTimeout
  | some a =>
    if a < p.hardTimeout then
      SettleOutcome.idleSuccess (lastChunkTime chunks + p.idleTimeout)
    else SettleOutcome.hardFailure p.hardTimeout

/-- Modelled from the spec: the result of continuation analysis
(section 4.5); the analyzer code is not among the repository files under
src/. -/
structure ContinuationResult where
  shouldContinue : Bool
  reason : String
deriving DecidableEq, Repr

/-- Modelled from the spec: the result of user-input-gap analysis
(section 4.5). -/
structure GapResult where
  needsInput : Bool
  questions : List String
deriving DecidableEq, Repr

/-- Modelled from the spec: how one advisory subprocess invocation ends,
either with output text or with a failure (section 4.2). -/
inductive RunnerOutcome where
  | ok (output : String)
  | failed (error : String)
deriving DecidableEq, Repr

/-- Modelled from the spec: continuation analysis (section 4.5), abstracted
over the JSON parser. Any runner failure, and any output the parser cannot
read as a single JSON object, resolves to the conservative default with
shouldContinue false; no error escapes. -/
def analyzeContinuation (parse : String → Option ContinuationResult)
    (run : RunnerOutcome) : ContinuationResult :=
  match run with
  | RunnerOutcome.failed _ => ⟨false, "analysis failed — stopping"⟩
  | RunnerOutcome.ok out =>
    match parse out with
    | some r => r
    | none => ⟨false, "analysis failed — stopping"⟩

/-- Modelled from the spec: user-input-gap analysis (section 4.5),
abstracted over the JSON parser; on any failure the default is needsInput
false with no questions. -/
def analyzeGap (parse : String → Option GapResult) (run : RunnerOutcome) :
    GapResult :=
  match run with
  | RunnerOutcome.failed _ => ⟨false, []⟩
  | RunnerOutcome.ok out =>
    match parse out with
    | some r => r
    | none => ⟨false, []⟩

/-- Modelled from the spec: what the round loop does after a round
(section 4.6, steps 5 to 7). -/
inductive RoundDecision where
  | stopLoop
  | continueToNextRound
  | pauseForUserInput (questions : List String)
deriving DecidableEq, Repr

/-- Modelled from the spec: the decision of the round loop after one round
(section 4.6, steps 5 to 7): the cap stops the loop first, then a negative
continuation verdict stops it, then a gap verdict with at least one question
pauses for user input, otherwise the next round begins. -/
def decideAfterRound (round maxRounds : Nat) (cont : ContinuationResult)
    (gap : GapResult) : RoundDecision :=
  if maxRounds ≤ round then RoundDecision.stopLoop
  else if ¬ cont.shouldContinue then RoundDecision.stopLoop
  else if gap.needsInput ∧ gap.questions ≠ [] then
    RoundDecision.pauseForUserInput gap.questions
  else RoundDecision.continueToNextRound

/-! Helper lemmas shared by the claim theorems. -/

/-- The slice-based rotation of the source equals Mathlib rotation by the
offset (round - 1) % length. -/
theorem rotateSpeakersLocal_eq_rotate (P : List CliName) (round : Nat) (hP : P ≠ []) :
    rotateSpeakersLocal P round = P.rotate ((round - 1) % P.length) := by
  have hlen : 0 < P.length := List.length_pos.mpr hP
  rw [List.rotate_eq_drop_append_take (le_of_lt (Nat.mod_lt _ hlen))]
  rfl

/-! Claim theorems. -/

/-- C1: for every non-empty participant list P and every round r with
1 ≤ r, the speaker order for round r is P rotated left by (r - 1) mod the
participant count; in particular, for the three participants claude, codex,
gemini, rounds 1 to 4 give the listed orders, round 4 repeating round 1. -/
theorem rotation_matches_spec (P : List CliName) (r : Nat)
    (hP : P ≠ []) (hr : 1 ≤ r) :
    rotateSpeakersLocal P r = P.rotate ((r - 1) % P.length) ∧
    rotateSpeakersLocal [CliName.claude, CliName.codex, CliName.gemini] 1 =
      [CliName.claude, CliName.codex, CliName.gemini] ∧
    rotateSpeakersLocal [CliName.claude, CliName.codex, CliName.gemini] 2 =
      [CliName.codex, CliName.gemini, CliName.claude] ∧
    rotateSpeakersLocal [CliName.claude, CliName.codex, CliName.gemini] 3 =
      [CliName.gemini, CliName.claude, CliName.codex] ∧
    rotateSpeakersLocal [CliName.claude, CliName.codex, CliName.gemini] 4 =
      [CliName.claude, CliName.codex, CliName.gemini] :=
  ⟨rotateSpeakersLocal_eq_rotate P r hP, by decide, by decide, by decide, by decide⟩

/-- Witness for C1 at the concrete participant list and round 2. -/
theorem rotation_matches_spec_check :
    rotateSpeakersLocal [CliName.claude, CliName.codex, CliName.gemini] 2 =
      List.rotate [CliName.claude, CliName.codex, CliName.gemini] ((2 - 1) % 3) ∧
    rotateSpeakersLocal [CliName.claude, CliName.codex, CliName.gemini] 2 =
      [CliName.codex, CliName.gemini, CliName.claude] :=
  ⟨(rotation_matches_spec [CliName.claude, CliName.codex, CliName.gemini] 2
      (by decide) (by decide)).1,
   (rotation_matches_spec [CliName.claude, CliName.codex, CliName.gemini] 2
      (by decide) (by decide)).2.2.1⟩

/-- C5: on an ultraplan.discussionComplete event, payload status completed
moves the workflow stage to consensus, and payload status failed moves it
directly to complete, whatever the current stage. -/
theorem discussionComplete_stage_transitions (stage : WorkflowStage) :
    handleDiscussionComplete stage (some "completed") = WorkflowStage.consensus ∧
    handleDiscussionComplete stage (some "failed") = WorkflowStage.complete := by
  constructor <;> simp [handleDiscussionComplete]

/-- C6: on an ultraplan.discussionFileInit event, payload status skipped
moves the workflow stage to complete, and any other payload status moves it
to discussion-init. -/
theorem discussionFileInit_stage_transitions (stage : WorkflowStage)
    (status : Option String) :
    handleDiscussionFileInit stage (some "skipped") = WorkflowStage.complete ∧
    (status ≠ some "skipped" →
      handleDiscussionFileInit stage status = WorkflowStage.discussionInit) := by
  refine ⟨by simp [handleDiscussionFileInit], fun h => ?_⟩
  simp [handleDiscussionFileInit, h]

/-- Folding max over times bounded by t, starting at t, stays at t. -/
theorem foldr_max_of_le {t : Nat} :
    ∀ {l : List Nat}, (∀ x ∈ l, x ≤ t) → l.foldr max t = t
  | [], _ => rfl
  | x :: xs, h => by
    simp only [List.foldr_cons]
    rw [foldr_max_of_le fun y hy => h y (List.mem_cons_of_mem _ hy)]
    exact Nat.max_eq_right (h x (List.mem_cons_self _ _))

/-- C2: for an invocation whose content probe first reports true at time t,
with no output afterwards, the idle timer is armed exactly at t (not
before), and provided content appeared before the hard ceiling the
invocation settles as an idle success at t plus the idle timeout, never as
a hard-timeout failure; with content at 5, idle timeout 10 and hard timeout
12 this settles as success at 15. -/
theorem idle_after_content_settles_success (p : TimerParams)
    (pre : List Chunk) (t : Nat)
    (hpre : ∀ c ∈ pre, c.2 = false)
    (htimes : ∀ c ∈ pre, c.1 ≤ t)
    (ht : t < p.hardTimeout) :
    armTime (pre ++ [(t, true)]) = some t ∧
    settleInvocation p (pre ++ [(t, true)]) =
      SettleOutcome.idleSuccess (t + p.idleTimeout) := by
  have hfilter : (pre ++ [(t, true)]).filter (fun c => c.2) = [(t, true)] := by
    rw [List.filter_append]
    have hnil : pre.filter (fun c => c.2) = [] :=
      List.filter_eq_nil_iff.mpr fun c hc => by simp [hpre c hc]
    rw [hnil]
    rfl
  have harm : armTime (pre ++ [(t, true)]) = some t := by
    unfold armTime
    rw [hfilter]
    rfl
  have hlast : lastChunkTime (pre ++ [(t, true)]) = t := by
    unfold lastChunkTime
    rw [List.map_append, List.foldr_append]
    simp only [List.map_cons, List.map_nil, List.foldr_cons, List.foldr_nil]
    rw [Nat.max_eq_left (Nat.zero_le t)]
    exact foldr_max_of_le fun x hx => by
      obtain ⟨c, hc, rfl⟩ := List.mem_map.mp hx
      exact htimes c hc
  refine ⟨harm, ?_⟩
  unfold settleInvocation
  rw [harm]
  simp only [if_pos ht, hlast]

/-- Witness for C2, the example of the spec: content at 5 seconds, idle
timeout 10, hard timeout 12, no further output; the invocation settles as
an idle success at 15, not as a hard-timeout failure. -/
theorem idle_after_content_settles_success_check :
    armTime [(5, true)] = some 5 ∧
    settleInvocation ⟨10, 12⟩ [(5, true)] = SettleOutcome.idleSuccess 15 :=
  idle_after_content_settles_success ⟨10, 12⟩ [] 5
    (by simp) (by simp) (by decide)

/-- A gap verdict with needsInput false can never make the round loop
pause. -/
theorem decideAfterRound_no_pause_of_gap_false {round maxRounds : Nat}
    {cont : ContinuationResult} {gap : GapResult}
    (hg : gap.needsInput = false) (qs : List String) :
    decideAfterRound round maxRounds cont gap ≠
      RoundDecision.pauseForUserInput qs := by
  unfold decideAfterRound
  split
  · simp
  split
  · simp
  rw [if_neg (by simp [hg])]
  simp

/-- A continuation verdict with shouldContinue false always stops the round
loop. -/
theorem decideAfterRound_stop_of_cont_false {round maxRounds : Nat}
    {cont : ContinuationResult} {gap : GapResult}
    (hc : cont.shouldContinue = false) :
    decideAfterRound round maxRounds cont gap = RoundDecision.stopLoop := by
  unfold decideAfterRound
  split
  · rfl
  rw [if_pos (by simp [hc])]

/-- C3: when the advisory subprocess invocation fails, or its output does
not parse as a single JSON object, continuation analysis resolves to
shouldContinue false and gap analysis to needsInput false, and the round
loop neither pauses (on a failed gap analysis) nor does anything but stop
cleanly (on a failed continuation analysis) — no workflow error is raised,
both analyzers being total functions into plain result records. -/
theorem advisory_failure_defaults_safe
    (parseC : String → Option ContinuationResult)
    (parseG : String → Option GapResult) (run : RunnerOutcome)
    (h : ∀ out, run = RunnerOutcome.ok out → parseC out = none ∧ parseG out = none) :
    (analyzeContinuation parseC run).shouldContinue = false ∧
    (analyzeGap parseG run).needsInput = false ∧
    (∀ round maxRounds cont qs,
      decideAfterRound round maxRounds cont (analyzeGap parseG run) ≠
        RoundDecision.pauseForUserInput qs) ∧
    (∀ round maxRounds gap,
      decideAfterRound round maxRounds (analyzeContinuation parseC run) gap =
        RoundDecision.stopLoop) := by
  have hc : (analyzeContinuation parseC run).shouldContinue = false := by
    cases run with
    | ok out => simp [analyzeContinuation, (h out rfl).1]
    | failed e => rfl
  have hg : (analyzeGap parseG run).needsInput = false := by
    cases run with
    | ok out => simp [analyzeGap, (h out rfl).2]
    | failed e => rfl
  exact ⟨hc, hg,
    fun round maxRounds cont qs => decideAfterRound_no_pause_of_gap_false hg qs,
    fun round maxRounds gap => decideAfterRound_stop_of_cont_false hc⟩

/-- Witness for C3: a parser that accepts nothing and an invocation whose
output is not JSON. -/
theorem advisory_failure_defaults_safe_check :
    (analyzeContinuation (fun _ => none)
      (RunnerOutcome.ok "not json")).shouldContinue = false ∧
    (analyzeGap (fun _ => none) (RunnerOutcome.ok "not json")).needsInput = false ∧
    (∀ round maxRounds cont qs,
      decideAfterRound round maxRounds cont
          (analyzeGap (fun _ => none) (RunnerOutcome.ok "not json")) ≠
        RoundDecision.pauseForUserInput qs) ∧
    (∀ round maxRounds gap,
      decideAfterRound round maxRounds
          (analyzeContinuation (fun _ => none) (RunnerOutcome.ok "not json")) gap =
        RoundDecision.stopLoop) :=
  advisory_failure_defaults_safe (fun _ => none) (fun _ => none)
    (RunnerOutcome.ok "not json")
    (fun out hout => by cases hout; exact ⟨rfl, rfl⟩)

/-- C7: the submission handler sends the ultraplan.userInputSubmit message
whose payload is exactly the mapping from 0-based question index to typed
answer, and the submit button is enabled precisely when every displayed
question index carries an answer that is not empty and not whitespace-only
— so a submitted mapping has a non-blank answer at every question index. -/
theorem userInput_submission_guard (questions : List String)
    (answers : Nat → Option String) :
    (submitUserInput answers).1 = "ultraplan.userInputSubmit" ∧
    (submitUserInput answers).2 = answers ∧
    (submitDisabled questions answers = false ↔
      ∀ i < questions.length, ∃ a, answers i = some a ∧ a.trim ≠ "") := by
  refine ⟨rfl, rfl, ?_⟩
  unfold submitDisabled
  rw [List.any_eq_false]
  constructor
  · intro hall i hi
    have hp := hall i (List.mem_range.mpr hi)
    cases ha : answers i with
    | none => rw [ha] at hp; simp at hp
    | some a =>
      rw [ha] at hp
      refine ⟨a, rfl, ?_⟩
      simpa using hp
  · intro hex i hirange
    obtain ⟨a, ha, hne⟩ := hex i (List.mem_range.mp hirange)
    rw [ha]
    simpa using hne

/-- C10: saveConfig persists the configuration exactly when validateConfig
returns no errors; the outcome carries the validation errors, and on any
validation error the stored configuration is left unchanged. -/
theorem saveConfig_validation_gate (c : UltraPlanConfig)
    (stored : Option UltraPlanConfig) :
    ((saveConfig c stored).1.ok = true ↔ validateConfig c = []) ∧
    (saveConfig c stored).1.errors = validateConfig c ∧
    (saveConfig c stored).2 =
      (if validateConfig c = [] then some c else stored) := by
  unfold saveConfig
  by_cases h : validateConfig c = []
  · simp [h]
  · have hne : (validateConfig c).isEmpty = false := by
      cases hv : validateConfig c with
      | nil => exact absurd hv h
      | cons a l => rfl
    simp [hne, h]

/-! Field names of the validation blocks, needed to isolate the
discussionRounds errors inside validateConfig. -/

theorem field_of_errsReadyKeyword {c : UltraPlanConfig} {e : ValidationError}
    (h : e ∈ errsReadyKeyword c) : e.field = "readyKeyword" := by
  unfold errsReadyKeyword at h
  split at h
  · simp at h; subst h; rfl
  split at h
  · simp at h; subst h; rfl
  split at h
  · simp at h; subst h; rfl
  · simp at h

theorem field_of_errsReadyProbePrompt {c : UltraPlanConfig} {e : ValidationError}
    (h : e ∈ errsReadyProbePrompt c) : e.field = "readyProbePrompt" := by
  unfold errsReadyProbePrompt at h
  split at h
  · simp at h; subst h; rfl
  split at h
  · simp at h; subst h; rfl
  · simp at h

theorem field_of_errsSystemPrompt {c : UltraPlanConfig} {e : ValidationError}
    (h : e ∈ errsSystemPrompt c) : e.field = "systemPrompt" := by
  unfold errsSystemPrompt at h
  split at h
  · simp at h; subst h; rfl
  · simp at h

theorem field_of_errsDiscussionTemplate {c : UltraPlanConfig} {e : ValidationError}
    (h : e ∈ errsDiscussionTemplate c) : e.field = "discussionTemplate" := by
  unfold errsDiscussionTemplate at h
  split at h
  · simp at h; subst h; rfl
  split at h
  · simp at h; subst h; rfl
  · simp at h

theorem field_of_errsReadyTimeout {c : UltraPlanConfig} {e : ValidationError}
    (h : e ∈ errsReadyTimeout c) : e.field = "readyTimeoutMs" := by
  unfold errsReadyTimeout at h
  split at h
  · simp at h; subst h; rfl
  · simp at h

theorem field_of_errsIdleComplete {c : UltraPlanConfig} {e : ValidationError}
    (h : e ∈ errsIdleComplete c) : e.field = "idleCompleteMs" := by
  unfold errsIdleComplete at h
  split at h
  · simp at h; subst h; rfl
  · simp at h

theorem field_of_errsQuestionTimeout {c : UltraPlanConfig} {e : ValidationError}
    (h : e ∈ errsQuestionTimeout c) : e.field = "questionTimeoutMs" := by
  unfold errsQuestionTimeout at h
  split at h
  · simp at h; subst h; rfl
  · simp at h

theorem field_of_errsTurnTimeout {c : UltraPlanConfig} {e : ValidationError}
    (h : e ∈ errsTurnTimeout c) : e.field = "discussionTurnTimeoutMs" := by
  unfold errsTurnTimeout at h
  split at h
  · simp at h; subst h; rfl
  · simp at h

theorem field_of_errsLanguage {c : UltraPlanConfig} {e : ValidationError}
    (h : e ∈ errsLanguage c) : e.field = "discussionLanguage" := by
  unfold errsLanguage at h
  split at h
  · simp at h; subst h; rfl
  split at h
  · simp at h; subst h; rfl
  · simp at h

/-- The discussionRounds block holds an error with field discussionRounds
exactly when the value is not an integer between 1 and 10. -/
theorem errsDiscussionRounds_spec (c : UltraPlanConfig) :
    (∃ e ∈ errsDiscussionRounds c, e.field = "discussionRounds") ↔
      ¬ (jsIsInteger c.discussionRounds ∧ 1 ≤ c.discussionRounds ∧
          c.discussionRounds ≤ 10) := by
  unfold errsDiscussionRounds
  by_cases h : ¬ jsIsInteger c.discussionRounds ∨ c.discussionRounds < 1 ∨
      10 < c.discussionRounds
  · rw [if_pos h]
    constructor
    · rintro -
      rintro ⟨hint, h1, h10⟩
      rcases h with h | h | h
      · exact h hint
      · exact absurd h1 (not_le_of_lt h)
      · exact absurd h10 (not_le_of_lt h)
    · intro _
      exact ⟨⟨"discussionRounds", "必须为 1-10 的整数"⟩, List.mem_singleton.mpr rfl, rfl⟩
  · rw [if_neg h]
    push_neg at h
    constructor
    · rintro ⟨e, he, -⟩
      exact absurd he (List.not_mem_nil e)
    · intro hneg
      exact absurd ⟨h.1, h.2.1, h.2.2⟩ hneg

/-- An empty discussionRounds block means the value is an integer between 1
and 10. -/
theorem errsDiscussionRounds_eq_nil {c : UltraPlanConfig}
    (h : errsDiscussionRounds c = []) :
    jsIsInteger c.discussionRounds ∧ 1 ≤ c.discussionRounds ∧
      c.discussionRounds ≤ 10 := by
  unfold errsDiscussionRounds at h
  split at h
  · simp at h
  · next hcond =>
      push_neg at hcond
      exact hcond

/-- C4: validateConfig reports an error on the discussionRounds field
exactly when the value is not an integer in the range 1 to 10, and every
configuration that validates with no error at all has an integral
discussionRounds between 1 and 10. -/
theorem discussionRounds_validation_iff (c : UltraPlanConfig) :
    ((∃ e ∈ validateConfig c, e.field = "discussionRounds") ↔
      ¬ (jsIsInteger c.discussionRounds ∧ 1 ≤ c.discussionRounds ∧
          c.discussionRounds ≤ 10)) ∧
    (validateConfig c = [] →
      jsIsInteger c.discussionRounds ∧ 1 ≤ c.discussionRounds ∧
        c.discussionRounds ≤ 10) := by
  have hmem : (∃ e ∈ validateConfig c, e.field = "discussionRounds") ↔
      (∃ e ∈ errsDiscussionRounds c, e.field = "discussionRounds") := by
    constructor
    · rintro ⟨e, he, hf⟩
      simp only [validateConfig, List.mem_append, or_assoc] at he
      rcases he with h | h | h | h | h | h | h | h | h | h
      · rw [field_of_errsReadyKeyword h] at hf; exact absurd hf (by decide)
      · rw [field_of_errsReadyProbePrompt h] at hf; exact absurd hf (by decide)
      · rw [field_of_errsSystemPrompt h] at hf; exact absurd hf (by decide)
      · rw [field_of_errsDiscussionTemplate h] at hf; exact absurd hf (by decide)
      · rw [field_of_errsReadyTimeout h] at hf; exact absurd hf (by decide)
      · rw [field_of_errsIdleComplete h] at hf; exact absurd hf (by decide)
      · rw [field_of_errsQuestionTimeout h] at hf; exact absurd hf (by decide)
      · exact ⟨e, h, hf⟩
      · rw [field_of_errsTurnTimeout h] at hf; exact absurd hf (by decide)
      · rw [field_of_errsLanguage h] at hf; exact absurd hf (by decide)
    · rintro ⟨e, he, hf⟩
      refine ⟨e, ?_, hf⟩
      simp only [validateConfig, List.mem_append]
      tauto
  refine ⟨hmem.trans (errsDiscussionRounds_spec c), fun hnil => ?_⟩
  simp only [validateConfig, List.append_eq_nil] at hnil
  exact errsDiscussionRounds_eq_nil hnil.1.1.2

/-- The list of first speakers over one full cycle of rounds equals the
rotation for the first of those rounds, elementwise. -/
theorem leaders_map_eq (P : List CliName) (r : Nat) (hP : P ≠ []) (hr : 1 ≤ r) :
    ((List.range P.length).map fun i => (rotateSpeakersLocal P (r + i)).head?) =
      (P.rotate ((r - 1) % P.length)).map some := by
  have hlen : 0 < P.length := List.length_pos.mpr hP
  apply List.ext_getElem?
  intro i
  by_cases hi : i < P.length
  · have hidx : (r + i - 1) % P.length < P.length := Nat.mod_lt _ hlen
    have hmod : (r + i - 1) % P.length =
        (i + (r - 1) % P.length) % P.length := by
      have h1 : r + i - 1 = i + (r - 1) := by omega
      conv_lhs => rw [h1, Nat.add_mod]
      conv_rhs => rw [Nat.add_mod, Nat.mod_mod_of_dvd _ dvd_rfl]
    have hrot : i < (P.rotate ((r - 1) % P.length)).length := by
      simpa [List.length_rotate] using hi
    calc ((List.range P.length).map
            fun i => (rotateSpeakersLocal P (r + i)).head?)[i]?
        = some ((rotateSpeakersLocal P (r + i)).head?) := by
          rw [List.getElem?_map, List.getElem?_range hi]; rfl
      _ = some (P[(r + i - 1) % P.length]?) := by
          rw [rotateSpeakersLocal_eq_rotate P (r + i) hP, List.head?_rotate hidx]
      _ = some (P[(i + (r - 1) % P.length) % P.length]?) := by rw [hmod]
      _ = some ((P.rotate ((r - 1) % P.length))[i]?) := by
          rw [List.getElem?_rotate hi]
      _ = ((P.rotate ((r - 1) % P.length)).map some)[i]? := by
          rw [List.getElem?_map, List.getElem?_eq_getElem hrot]
          rfl
  · have hge : P.length ≤ i := le_of_not_lt hi
    have h1 : ((List.range P.length).map
        fun i => (rotateSpeakersLocal P (r + i)).head?)[i]? = none := by
      apply List.getElem?_eq_none
      simpa using hge
    have h2 : ((P.rotate ((r - 1) % P.length)).map some)[i]? = none := by
      apply List.getElem?_eq_none
      simpa [List.length_rotate] using hge
    rw [h1, h2]

/-- C8: for a non-empty duplicate-free participant list P and any round r
with 1 ≤ r, the rotation is periodic with period the participant count, and
the first speakers of the participant-count many consecutive rounds
starting at r form a permutation of P with no repetition — each participant
leads exactly once per full cycle. -/
theorem rotation_cycle_leaders_perm (P : List CliName) (r : Nat)
    (hP : P ≠ []) (hnd : P.Nodup) (hr : 1 ≤ r) :
    rotateSpeakersLocal P (r + P.length) = rotateSpeakersLocal P r ∧
    List.Perm
      ((List.range P.length).map fun i => (rotateSpeakersLocal P (r + i)).head?)
      (P.map some) ∧
    ((List.range P.length).map
      fun i => (rotateSpeakersLocal P (r + i)).head?).Nodup := by
  have hper : rotateSpeakersLocal P (r + P.length) = rotateSpeakersLocal P r := by
    unfold rotateSpeakersLocal
    have h1 : r + P.length - 1 = (r - 1) + P.length := by omega
    rw [h1, Nat.add_mod_right]
  have hmap := leaders_map_eq P r hP hr
  refine ⟨hper, ?_, ?_⟩
  · rw [hmap]
    exact (List.rotate_perm P _).map some
  · rw [hmap]
    exact ((List.rotate_perm P _).nodup_iff.mpr hnd).map (Option.some_injective _)

/-- Witness for C8 at the three concrete participants and round 1. -/
theorem rotation_cycle_leaders_perm_check :
    rotateSpeakersLocal [CliName.claude, CliName.codex, CliName.gemini] (1 + 3) =
      rotateSpeakersLocal [CliName.claude, CliName.codex, CliName.gemini] 1 ∧
    List.Perm
      ((List.range 3).map fun i =>
        (rotateSpeakersLocal [CliName.claude, CliName.codex, CliName.gemini]
          (1 + i)).head?)
      ([CliName.claude, CliName.codex, CliName.gemini].map some) ∧
    ((List.range 3).map fun i =>
      (rotateSpeakersLocal [CliName.claude, CliName.codex, CliName.gemini]
        (1 + i)).head?).Nodup :=
  rotation_cycle_leaders_perm [CliName.claude, CliName.codex, CliName.gemini] 1
    (by decide) (by decide) (by decide)

/-- Joining chunk lists distributes over concatenation. -/
theorem join_append (a b : List String) :
    String.join (a ++ b) = String.join a ++ String.join b := by
  apply String.ext
  simp [String.data_join, String.data_append, List.map_append, List.flatten_append]

/-- The trim loop keeps the size equal to the total length, returns a
suffix of its input, trims to at most one chunk whenever the final size
still exceeds the cap, and never empties a non-empty buffer. -/
theorem trimReplay_spec : ∀ (chunks : List String) (size : Nat),
    size = sumLens chunks →
    (trimReplay chunks size).2 = sumLens (trimReplay chunks size).1 ∧
    (trimReplay chunks size).1 <:+ chunks ∧
    (REPLAY_BUFFER_MAX < (trimReplay chunks size).2 →
      (trimReplay chunks size).1.length ≤ 1) ∧
    (chunks ≠ [] → (trimReplay chunks size).1 ≠ [])
  | [], size, h => by
    refine ⟨by simpa [trimReplay] using h, by simp [trimReplay], ?_, ?_⟩
    · intro hgt
      simp [trimReplay]
    · intro hne
      exact absurd rfl hne
  | c :: rest, size, h => by
    have hsum : sumLens (c :: rest) = c.length + sumLens rest := by simp [sumLens]
    simp only [trimReplay]
    split
    · next hcond =>
        have h' : size - c.length = sumLens rest := by
          rw [h, hsum]
          omega
        obtain ⟨ih1, ih2, ih3, ih4⟩ := trimReplay_spec rest (size - c.length) h'
        exact ⟨ih1, ih2.trans (List.suffix_cons c rest), ih3,
          fun _ => ih4 hcond.2⟩
    · next hcond =>
        refine ⟨h, List.suffix_refl _, ?_, fun _ => by simp⟩
        intro hgt
        have hrest : rest = [] := by
          by_contra hr2
          exact hcond ⟨hgt, hr2⟩
        simp [hrest]

/-- One data event preserves the replay invariants: size bookkeeping, the
buffer being a suffix of the pushed chunks, and the one-chunk shape above
the cap. -/
theorem sessionOnData_spec (st : ReplayState) (d : String)
    (h : st.size = sumLens st.chunks) :
    (sessionOnData st d).size = sumLens (sessionOnData st d).chunks ∧
    (sessionOnData st d).chunks <:+ st.chunks ++ [d] ∧
    (REPLAY_BUFFER_MAX < (sessionOnData st d).size →
      (sessionOnData st d).chunks.length = 1) := by
  have hpre : st.size + d.length = sumLens (st.chunks ++ [d]) := by
    simp [sumLens, h]
  obtain ⟨h1, h2, h3, h4⟩ :=
    trimReplay_spec (st.chunks ++ [d]) (st.size + d.length) hpre
  refine ⟨h1, h2, fun hgt => ?_⟩
  have hle : (sessionOnData st d).chunks.length ≤ 1 := h3 hgt
  have hne : (sessionOnData st d).chunks ≠ [] := h4 (by simp)
  have hpos : 0 < (sessionOnData st d).chunks.length := List.length_pos.mpr hne
  omega

/-- The replay invariants carried through an arbitrary run of data
events. -/
theorem runReplay_aux : ∀ (datas : List String) (st : ReplayState)
    (acc : List String),
    st.size = sumLens st.chunks →
    st.chunks <:+ acc →
    (REPLAY_BUFFER_MAX < st.size → st.chunks.length = 1) →
    (datas.foldl sessionOnData st).size =
      sumLens (datas.foldl sessionOnData st).chunks ∧
    (datas.foldl sessionOnData st).chunks <:+ acc ++ datas ∧
    (REPLAY_BUFFER_MAX < (datas.foldl sessionOnData st).size →
      (datas.foldl sessionOnData st).chunks.length = 1)
  | [], st, acc, h1, h2, h3 => by
    simp only [List.foldl_nil, List.append_nil]
    exact ⟨h1, h2, h3⟩
  | d :: ds, st, acc, h1, h2, h3 => by
    simp only [List.foldl_cons]
    obtain ⟨g1, g2, g3⟩ := sessionOnData_spec st d h1
    have h2' : (sessionOnData st d).chunks <:+ acc ++ [d] := by
      obtain ⟨u, hu⟩ := h2
      refine g2.trans ⟨u, ?_⟩
      rw [← hu, List.append_assoc]
    have hrec := runReplay_aux ds (sessionOnData st d) (acc ++ [d]) g1 h2' g3
    simpa [List.append_assoc] using hrec

/-- C9: after a session has handled any sequence of normalized data chunks,
the stored replay size equals the total length of the buffered chunks, the
replay buffer is exactly their concatenation and a suffix of the full
normalized output stream, and whenever the size exceeds the 256 KB cap the
buffer holds exactly one chunk, itself longer than the cap — so the buffer
never exceeds 256 KB unless a single chunk alone does. -/
theorem replay_buffer_invariant (datas : List String) :
    (runSession datas).size = sumLens (runSession datas).chunks ∧
    getReplayBuffer (runSession datas) = String.join (runSession datas).chunks ∧
    (∃ dropped, dropped ++ (runSession datas).chunks = datas) ∧
    (∃ pre, String.join datas = pre ++ getReplayBuffer (runSession datas)) ∧
    (REPLAY_BUFFER_MAX < (runSession datas).size →
      ∃ c, (runSession datas).chunks = [c] ∧ REPLAY_BUFFER_MAX < c.length) := by
  unfold runSession
  obtain ⟨h1, h2, h3⟩ := runReplay_aux datas ⟨[], 0⟩ [] rfl (List.suffix_refl _)
    (fun h => absurd h (Nat.not_lt_zero _))
  have hsuffix :
      (List.foldl sessionOnData ⟨[], 0⟩ datas).chunks <:+ datas := by
    simpa using h2
  refine ⟨h1, rfl, hsuffix, ?_, ?_⟩
  · obtain ⟨t, ht⟩ := hsuffix
    refine ⟨String.join t, ?_⟩
    calc String.join datas
        = String.join (t ++ (List.foldl sessionOnData ⟨[], 0⟩ datas).chunks) := by
          rw [ht]
      _ = String.join t ++
            String.join (List.foldl sessionOnData ⟨[], 0⟩ datas).chunks :=
          join_append _ _
      _ = String.join t ++
            getReplayBuffer (List.foldl sessionOnData ⟨[], 0⟩ datas) := rfl
  · intro hgt
    have hlen := h3 hgt
    obtain ⟨c, hc⟩ := List.length_eq_one.mp hlen
    refine ⟨c, hc, ?_⟩
    have hsz :
        (List.foldl sessionOnData (⟨[], 0⟩ : ReplayState) datas).size =
          c.length := by
      rw [h1, hc]
      simp [sumLens]
    rw [hsz] at hgt
    exact hgt

end UltraPlan
